import Mathlib

/-!
Verification development for the blauprint library (src/lib.rs, src/waker.rs):
a single-threaded driver that turns a suspendable blueprint computation into a
pull-based sequence of events.  The Rust source is shallowly embedded below:
futures become explicit state machines, the executor step becomes a function on
an explicit state, and panics become `Except.error` results carrying the panic
message.
-/

namespace Blauprint

/-- Result of polling a future: `std::task::Poll` from the Rust standard
library. -/
inductive Poll (α : Type) where
  | ready (value : α)
  | pending

/-- Internal suspension reason deposited into the shared slot while the
blueprint is suspended (enum `InnerEvent` in lib.rs, lines 131-134).
`input` corresponds to `InnerEvent::Input(Responder<I>)`; the Responder payload
is represented implicitly: in this single-threaded model the live Responder is
exactly the private holder cell stored in the executor state (see
`FutState.awaitingInput` and `Responder.provide`). -/
inductive InnerEvent (I O : Type) where
  | input
  | output (o : O)

/-- Consumer-facing event (enum `Event` in lib.rs, lines 125-129).
`input` carries the Responder in the source; as for `InnerEvent`, the Responder
is modelled by the executor state rather than as a first-class value. -/
inductive Event (I O R : Type) where
  | input
  | output (o : O)
  | ret (r : R)

/-- The `Into<Event>` conversion for `InnerEvent` (lib.rs, lines 136-143). -/
def InnerEvent.toEvent {I O R : Type} : InnerEvent I O → Event I O R
  | .input => .input
  | .output o => .output o

/-- A `SharedCell<T>` is `Rc<Cell<Option<T>>>` (lib.rs, line 165); its state is
the contained `Option`. -/
abbrev SharedCell (α : Type) : Type := Option α

/-- `SharedCell::new` (lib.rs, lines 168-170): the cell starts empty. -/
def SharedCell.new {α : Type} : SharedCell α := none

/-- `SharedCell::set` (lib.rs, lines 172-175): `replace(Some(value))` followed
by `assert!(x.is_none(), "SharedCell was already set")`.  The panic on a
non-empty cell is modelled as an `Except.error` with the panic message. -/
def SharedCell.set {α : Type} (c : SharedCell α) (value : α) : Except String (SharedCell α) :=
  match c with
  | none => .ok (some value)
  | some _ => .error "SharedCell was already set"

/-- `SharedCell::take` (lib.rs, lines 177-179): `replace(None)`, returning the
removed value and the emptied cell. -/
def SharedCell.take {α : Type} (c : SharedCell α) : Option α × SharedCell α := (c, none)

/-- Plain `std::cell::Cell::set`, which unconditionally replaces the content
and discards the previous value.  This is the operation `want_input` and
`provide_output` use on the shared event slot (`self.inner.0.set(Some(event))`,
lib.rs lines 41 and 48) — note that it is NOT the asserting
`SharedCell::set`. -/
def Cell.set {α : Type} (_cell : Option α) (value : Option α) : Option α := value

/-- State of the `Pause` future (lib.rs, lines 53-67): the `bool` field.
`Pause::default()` is `false`. -/
def Pause.poll (p : Bool) : Bool × Poll Unit :=
  if p then (p, .ready ()) else (true, .pending)

/-- Poll of the `WantInput` future (lib.rs, lines 78-87): `take` the holder
cell; ready with the value if present, otherwise pending. -/
def WantInput.poll {I : Type} (holder : SharedCell I) : SharedCell I × Poll I :=
  match SharedCell.take holder with
  | (some v, h) => (h, .ready v)
  | (none, h) => (h, .pending)

/-- Syntax of a blueprint: the body of an async function written against
`Handle<I, O>` (lib.rs, lines 31-51), returning a value of type `R`.
`pure` is plain return; `wantInput k` is `handle.want_input().await` with
continuation `k`; `provideOutput o rest` is `handle.provide_output(o).await`
followed by `rest`.  The two `Drop` forms model calling a Handle method and
discarding the returned future without awaiting it (legal Rust such as
`let _ = handle.want_input();`): the deposit into the shared slot happens at
call time (lib.rs lines 41 and 48), before any await. -/
inductive BP (I O R : Type) where
  | pure (r : R) : BP I O R
  | wantInput (k : I → BP I O R) : BP I O R
  | provideOutput (o : O) (rest : BP I O R) : BP I O R
  | wantInputDrop (rest : BP I O R) : BP I O R
  | provideOutputDrop (o : O) (rest : BP I O R) : BP I O R

/-- Saved state of the compiled blueprint future between executor polls.
`run bp` is a future that has not yet entered `bp`; `awaitingInput holder k`
is suspended inside `WantInput` (with its private holder cell and the rest of
the body as continuation); `pausing rest` is suspended inside a `Pause` whose
flag has already been set to `true` by its first poll (the only `Pause` state
that can be live across executor polls, since the first poll of a fresh
`Pause` happens in the same executor step that created it). -/
inductive FutState (I O R : Type) where
  | run (bp : BP I O R) : FutState I O R
  | awaitingInput (holder : SharedCell I) (k : I → BP I O R) : FutState I O R
  | pausing (rest : BP I O R) : FutState I O R

/-- Outcome of polling the blueprint future once: either `Poll::Ready` with
the return value, or `Poll::Pending` together with the saved state. -/
inductive StepRes (I O R : Type) where
  | ready (r : R)
  | pend (fs : FutState I O R)

/-- `Handle::want_input` (lib.rs, lines 36-44) up to its suspension: create a
fresh empty holder (`SharedCell::new`), deposit `InnerEvent::Input` into the
shared slot with plain `Cell::set` (line 41), and hand back the new shared
slot together with the fresh holder of the `WantInput` future.  The Responder
wrapping the same holder is given to the consumer through the emitted event. -/
def Handle.want_input {I O : Type} (inner : SharedCell (InnerEvent I O)) :
    SharedCell (InnerEvent I O) × SharedCell I :=
  (Cell.set inner (some InnerEvent.input), SharedCell.new)

/-- `Handle::provide_output` (lib.rs, lines 46-50) up to its suspension:
deposit `InnerEvent::Output(o)` into the shared slot with plain `Cell::set`
(line 48) and hand back the new shared slot together with the fresh `Pause`
state (`Pause::default()`, flag `false`). -/
def Handle.provide_output {I O : Type} (inner : SharedCell (InnerEvent I O)) (o : O) :
    SharedCell (InnerEvent I O) × Bool :=
  (Cell.set inner (some (InnerEvent.output o)), false)

/-- Run the blueprint body from a syntactic position until it suspends or
returns, threading the shared event slot.  A fresh `WantInput` polls pending
on its first poll (its holder is empty: `WantInput.poll SharedCell.new`
is pending, see `wantInput_first_poll`), and a fresh `Pause` polls pending
with its flag set (`Pause.poll false`, see `pause_first_poll`), so the
suspended states are stored directly.  The `Drop` forms deposit and continue
executing in the same poll. -/
def runBP {I O R : Type} : BP I O R → SharedCell (InnerEvent I O) →
    SharedCell (InnerEvent I O) × StepRes I O R
  | .pure r, inner => (inner, .ready r)
  | .wantInput k, inner =>
      ((Handle.want_input inner).1, .pend (.awaitingInput (Handle.want_input inner).2 k))
  | .provideOutput o rest, inner =>
      ((Handle.provide_output inner o).1, .pend (.pausing rest))
  | .wantInputDrop rest, inner => runBP rest (Handle.want_input inner).1
  | .provideOutputDrop o rest, inner => runBP rest (Handle.provide_output inner o).1

/-- One poll of the compiled blueprint future (the `poll` performed by
`Executor::next`, lib.rs line 111), from a saved state.  Resuming a
`WantInput` takes its holder (lib.rs lines 81-86); resuming a `Pause` whose
flag is `true` is ready (lib.rs lines 59-66) and the body continues running
within the same poll. -/
def pollFut {I O R : Type} : FutState I O R → SharedCell (InnerEvent I O) →
    SharedCell (InnerEvent I O) × StepRes I O R
  | .run bp, inner => runBP bp inner
  | .awaitingInput holder k, inner =>
      match WantInput.poll holder with
      | (_, .ready v) => runBP (k v) inner
      | (h, .pending) => (inner, .pend (.awaitingInput h k))
  | .pausing rest, inner =>
      match (Pause.poll true).2 with
      | .ready _ => runBP rest inner
      | .pending => (inner, .pend (.pausing rest))

/-- State of the `Executor` (lib.rs, lines 89-102): the optional future
(`None` once completed) and the shared suspension-reason slot. -/
structure ExecState (I O R : Type) where
  future : Option (FutState I O R)
  inner : SharedCell (InnerEvent I O)

/-- `Executor::next` (lib.rs, lines 107-122).  If the future is gone the
sequence is exhausted.  Otherwise poll once: on `Ready(v)` drop the future and
emit `Event::Return(v)`; on `Pending` drain the shared slot
(`replace(None).expect("inner event")` — the panic when the slot is empty is
modelled as an `Except.error` with the expect message) and emit the drained
suspension reason as an event. -/
def execNext {I O R : Type} (s : ExecState I O R) :
    Except String (Option (Event I O R) × ExecState I O R) :=
  match s.future with
  | none => .ok (none, s)
  | some fs =>
    match pollFut fs s.inner with
    | (inner, .ready v) => .ok (some (.ret v), ⟨none, inner⟩)
    | (inner, .pend fs) =>
      match SharedCell.take inner with
      | (none, _) => .error "inner event"
      | (some ie, drained) => .ok (some ie.toEvent, ⟨some fs, drained⟩)

/-- Entry point `run` (lib.rs, lines 11-29): create the empty shared slot
(`SharedCell::new`), build the Handle, call the blueprint constructor (which
only creates the future — an async function body does not execute before its
first poll), and wrap it in the Executor.  Nothing is polled and nothing is
deposited. -/
def run {I O R : Type} (bp : BP I O R) : ExecState I O R :=
  { future := some (.run bp), inner := SharedCell.new }

/-- `Responder::provide` (lib.rs, lines 149-157): deposit the value into the
private holder cell via the asserting `SharedCell::set`.  In the source the
Responder owns the holder; in this model the one live holder is the one stored
in `FutState.awaitingInput`, so `provide` is an operation on the executor
state.  Modelling artifact: the catch-all arm is unreachable for a consumer
holding a live Responder, which exists exactly while the blueprint is
suspended in `awaitingInput` (a Responder of a dropped, never-awaited
`want_input` writes to a cell nobody ever reads and is not modelled). -/
def Responder.provide {I O R : Type} (s : ExecState I O R) (v : I) :
    Except String (ExecState I O R) :=
  match s.future with
  | some (.awaitingInput holder k) =>
    match SharedCell.set holder v with
    | .ok h => .ok ⟨some (.awaitingInput h k), s.inner⟩
    | .error m => .error m
  | _ => .error "no pending input request"

/-- Pull the event sequence `n` times, collecting the emitted events.  A fatal
contract violation anywhere aborts the whole run. -/
def pullN {I O R : Type} : Nat → ExecState I O R →
    Except String (List (Event I O R) × ExecState I O R)
  | 0, s => .ok ([], s)
  | n + 1, s => do
    let (e, s₁) ← execNext s
    let (es, s₂) ← pullN n s₁
    .ok (e.toList ++ es, s₂)

/-- The four entries of a `RawWakerVTable` (waker.rs, line 9). -/
inductive WakerCall where
  | clone
  | wake
  | wakeByRef
  | drop

/-- A waker is its vtable: each call either returns without effect or aborts.
`RAW_WAKER_VTABLE` (waker.rs, lines 9-19): `clone` panics with the message
"Blueprint is not an async runtime." and `wake`, `wake_by_ref` and `drop` are
no-ops. -/
def Waker : Type := WakerCall → Except String Unit

/-- `fake_waker` (waker.rs, lines 4-7): the waker backed by
`RAW_WAKER_VTABLE`. -/
def fake_waker : Waker
  | .clone => .error "Blueprint is not an async runtime."
  | .wake => .ok ()
  | .wakeByRef => .ok ()
  | .drop => .ok ()

/-- The waker installed by `Executor::new` (lib.rs, line 99). -/
def executorWaker : Waker := fake_waker

/-- The poll performed by `Executor::next` with its context made explicit.
Every `poll` in lib.rs binds the context as `_cx` (lines 59, 81) and never
uses it, so the result does not depend on the waker. -/
def pollFutWithCx {I O R : Type} (_cx : Waker) (fs : FutState I O R)
    (inner : SharedCell (InnerEvent I O)) : SharedCell (InnerEvent I O) × StepRes I O R :=
  pollFut fs inner

/-- Deposit-instrumented variant of `runBP`: additionally returns, in temporal
order, the list of suspension reasons the blueprint deposited into the shared
slot during this poll.  The second component coincides with `runBP`
(see `runBPT_eq_runBP`); the instrumentation is a verification device, not
part of the source. -/
def runBPT {I O R : Type} : BP I O R → SharedCell (InnerEvent I O) →
    List (InnerEvent I O) × (SharedCell (InnerEvent I O) × StepRes I O R)
  | .pure r, inner => ([], (inner, .ready r))
  | .wantInput k, inner =>
      ([.input], ((Handle.want_input inner).1, .pend (.awaitingInput (Handle.want_input inner).2 k)))
  | .provideOutput o rest, inner =>
      ([.output o], ((Handle.provide_output inner o).1, .pend (.pausing rest)))
  | .wantInputDrop rest, inner =>
      let r := runBPT rest (Handle.want_input inner).1
      (.input :: r.1, r.2)
  | .provideOutputDrop o rest, inner =>
      let r := runBPT rest (Handle.provide_output inner o).1
      (.output o :: r.1, r.2)

/-- Deposit-instrumented variant of `pollFut`. -/
def pollFutT {I O R : Type} : FutState I O R → SharedCell (InnerEvent I O) →
    List (InnerEvent I O) × (SharedCell (InnerEvent I O) × StepRes I O R)
  | .run bp, inner => runBPT bp inner
  | .awaitingInput holder k, inner =>
      match WantInput.poll holder with
      | (_, .ready v) => runBPT (k v) inner
      | (h, .pending) => ([], (inner, .pend (.awaitingInput h k)))
  | .pausing rest, inner =>
      match (Pause.poll true).2 with
      | .ready _ => runBPT rest inner
      | .pending => ([], (inner, .pend (.pausing rest)))

/-- Deposit-instrumented variant of `execNext`. -/
def execNextT {I O R : Type} (s : ExecState I O R) :
    List (InnerEvent I O) × Except String (Option (Event I O R) × ExecState I O R) :=
  match s.future with
  | none => ([], .ok (none, s))
  | some fs =>
    match pollFutT fs s.inner with
    | (ds, (inner, .ready v)) => (ds, .ok (some (.ret v), ⟨none, inner⟩))
    | (ds, (inner, .pend fs)) =>
      match SharedCell.take inner with
      | (none, _) => (ds, .error "inner event")
      | (some ie, drained) => (ds, .ok (some ie.toEvent, ⟨some fs, drained⟩))

/-- A blueprint is drop-free when it awaits every Handle operation it starts:
it never calls `want_input` or `provide_output` and discards the returned
future.  This is the shape every async body written as
`handle.want_input().await` / `handle.provide_output(o).await` has. -/
inductive BP.DropFree {I O R : Type} : BP I O R → Prop
  | pure (r : R) : BP.DropFree (.pure r)
  | wantInput (k : I → BP I O R) : (∀ v, BP.DropFree (k v)) → BP.DropFree (.wantInput k)
  | provideOutput (o : O) (rest : BP I O R) :
      BP.DropFree rest → BP.DropFree (.provideOutput o rest)

/-- Drop-freedom of a saved future state: every blueprint code it can still
run is drop-free. -/
inductive FutState.DropFree {I O R : Type} : FutState I O R → Prop
  | run (bp : BP I O R) : bp.DropFree → FutState.DropFree (.run bp)
  | awaitingInput (holder : SharedCell I) (k : I → BP I O R) :
      (∀ v, BP.DropFree (k v)) → FutState.DropFree (.awaitingInput holder k)
  | pausing (rest : BP I O R) : rest.DropFree → FutState.DropFree (.pausing rest)

/-- Drop-freedom of an executor state. -/
def ExecState.DropFree {I O R : Type} (s : ExecState I O R) : Prop :=
  ∀ fs, s.future = some fs → fs.DropFree

/-- First poll of a fresh `Pause` (flag `false`): sets the flag and returns
`Pending` (lib.rs, lines 62-64). -/
theorem pause_first_poll : Pause.poll false = (true, Poll.pending) := rfl

/-- Second poll of a `Pause` (flag `true`): returns `Ready(())`
(lib.rs, lines 60-61). -/
theorem pause_second_poll : Pause.poll true = (true, Poll.ready ()) := rfl

/-- First poll of a fresh `WantInput`: its holder is the just-created empty
cell, so `take` yields nothing and the poll is `Pending`
(lib.rs, lines 37 and 81-86). -/
theorem wantInput_first_poll {I : Type} :
    WantInput.poll (SharedCell.new : SharedCell I) = (SharedCell.new, Poll.pending) := rfl

/-- `WantInput.poll` on a filled holder empties it and is ready with exactly
the stored value (lib.rs, lines 82-83). -/
theorem wantInput_poll_filled {I : Type} (v : I) :
    WantInput.poll (some v) = (SharedCell.new, Poll.ready v) := rfl

/-- The instrumented body runner agrees with `runBP`. -/
theorem runBPT_eq_runBP {I O R : Type} (bp : BP I O R) :
    ∀ inner, (runBPT bp inner).2 = runBP bp inner := by
  induction bp with
  | pure r => intro inner; rfl
  | wantInput k ih => intro inner; rfl
  | provideOutput o rest ih => intro inner; rfl
  | wantInputDrop rest ih => intro inner; simpa [runBPT, runBP] using ih _
  | provideOutputDrop o rest ih => intro inner; simpa [runBPT, runBP] using ih _

/-- The instrumented future poll agrees with `pollFut`. -/
theorem pollFutT_eq_pollFut {I O R : Type} (fs : FutState I O R)
    (inner : SharedCell (InnerEvent I O)) : (pollFutT fs inner).2 = pollFut fs inner := by
  cases fs with
  | run bp => exact runBPT_eq_runBP bp inner
  | awaitingInput holder k =>
    cases holder with
    | none => rfl
    | some v => simpa [pollFutT, pollFut, WantInput.poll, SharedCell.take] using runBPT_eq_runBP (k v) inner
  | pausing rest => simpa [pollFutT, pollFut, Pause.poll] using runBPT_eq_runBP rest inner

/-- The instrumented executor step agrees with `execNext`. -/
theorem execNextT_eq_execNext {I O R : Type} (s : ExecState I O R) :
    (execNextT s).2 = execNext s := by
  obtain ⟨f, inner⟩ := s
  cases f with
  | none => rfl
  | some fs =>
    have h := pollFutT_eq_pollFut fs inner
    unfold execNextT execNext
    dsimp only
    rcases ht : pollFutT fs inner with ⟨ds, inner₁, res⟩
    rw [ht] at h
    rw [← h]
    cases res with
    | ready v => rfl
    | pend fs₂ => cases inner₁ <;> rfl

/-- If running a blueprint body leaves an `Input` reason in the shared slot
and suspends, the suspension is a `WantInput` over a fresh empty holder. -/
theorem runBP_input_pend {I O R : Type} (bp : BP I O R) :
    ∀ inner fs, runBP bp inner = (some InnerEvent.input, StepRes.pend fs) →
      ∃ k, fs = FutState.awaitingInput SharedCell.new k := by
  induction bp with
  | pure r => intro inner fs h; simp [runBP] at h
  | wantInput k ih =>
    intro inner fs h
    simp [runBP, Handle.want_input, Cell.set] at h
    exact ⟨k, h.symm⟩
  | provideOutput o rest ih =>
    intro inner fs h
    simp [runBP, Handle.provide_output, Cell.set] at h
  | wantInputDrop rest ih =>
    intro inner fs h
    exact ih _ fs h
  | provideOutputDrop o rest ih =>
    intro inner fs h
    exact ih _ fs h

/-- If polling the saved future leaves an `Input` reason in the shared slot
and suspends, the suspension is a `WantInput` over an empty holder. -/
theorem pollFut_input_pend {I O R : Type} (fs : FutState I O R)
    (inner : SharedCell (InnerEvent I O)) (fs₁ : FutState I O R)
    (h : pollFut fs inner = (some InnerEvent.input, StepRes.pend fs₁)) :
    ∃ k, fs₁ = FutState.awaitingInput SharedCell.new k := by
  cases fs with
  | run bp => exact runBP_input_pend bp inner fs₁ h
  | awaitingInput holder k =>
    cases holder with
    | none =>
      simp [pollFut, WantInput.poll, SharedCell.take] at h
      exact ⟨k, h.2.symm⟩
    | some v =>
      simp [pollFut, WantInput.poll, SharedCell.take] at h
      exact runBP_input_pend (k v) inner fs₁ h
  | pausing rest =>
    simp [pollFut, Pause.poll] at h
    exact runBP_input_pend rest inner fs₁ h

/-- After any pull that emits an `Input` event, the executor state is exactly:
blueprint suspended on a `WantInput` whose private holder is fresh and empty,
and the shared slot drained. -/
theorem execNext_input_state {I O R : Type} (s s₁ : ExecState I O R)
    (h : execNext s = .ok (some Event.input, s₁)) :
    ∃ k, s₁ = ⟨some (FutState.awaitingInput SharedCell.new k), SharedCell.new⟩ := by
  obtain ⟨f, inner⟩ := s
  cases f with
  | none => simp [execNext] at h
  | some fs =>
    unfold execNext at h
    dsimp only at h
    rcases hp : pollFut fs inner with ⟨inner₁, res⟩
    rw [hp] at h
    cases res with
    | ready v => simp at h
    | pend fs₁ =>
      cases inner₁ with
      | none => simp [SharedCell.take] at h
      | some ie =>
        cases ie with
        | output o => simp [SharedCell.take, InnerEvent.toEvent] at h
        | input =>
          simp [SharedCell.take, InnerEvent.toEvent] at h
          obtain ⟨k, hk⟩ := pollFut_input_pend fs inner fs₁ hp
          exact ⟨k, by rw [← h, hk]; rfl⟩

/-- Once the future is gone, a pull produces nothing and leaves the state
unchanged (lib.rs, line 108: `self.future.as_mut()?`). -/
theorem execNext_completed {I O R : Type} (s : ExecState I O R)
    (h : s.future = none) : execNext s = .ok (none, s) := by
  unfold execNext
  rw [h]

/-- Once the future is gone, any number of pulls produces nothing. -/
theorem pullN_completed {I O R : Type} (n : Nat) (s : ExecState I O R)
    (h : s.future = none) : pullN n s = .ok ([], s) := by
  induction n with
  | zero => rfl
  | succ n ih =>
    simp only [pullN, execNext_completed s h, bind, Except.bind, ih]
    rfl

/-- Running a drop-free blueprint body for one poll either returns (depositing
nothing) or deposits exactly one suspension reason, suspends on it, and leaves
a drop-free saved state. -/
theorem runBPT_dropFree {I O R : Type} {bp : BP I O R} (h : bp.DropFree)
    (inner : SharedCell (InnerEvent I O)) :
    (∃ r, runBPT bp inner = ([], (inner, StepRes.ready r)))
    ∨ (∃ e fs, runBPT bp inner = ([e], (some e, StepRes.pend fs)) ∧ fs.DropFree) := by
  cases h with
  | pure r => exact Or.inl ⟨r, rfl⟩
  | wantInput k hk =>
    exact Or.inr ⟨.input, .awaitingInput SharedCell.new k, rfl, .awaitingInput _ k hk⟩
  | provideOutput o rest hr =>
    exact Or.inr ⟨.output o, .pausing rest, rfl, .pausing rest hr⟩

/-- Polling a drop-free saved future either returns (depositing nothing),
deposits exactly one suspension reason and suspends on it, or is a
still-unfulfilled `WantInput` that stays pending without depositing. -/
theorem pollFutT_dropFree {I O R : Type} {fs : FutState I O R} (h : fs.DropFree)
    (inner : SharedCell (InnerEvent I O)) :
    (∃ r, pollFutT fs inner = ([], (inner, StepRes.ready r)))
    ∨ (∃ e fs₁, pollFutT fs inner = ([e], (some e, StepRes.pend fs₁)) ∧ fs₁.DropFree)
    ∨ (∃ k, fs = FutState.awaitingInput SharedCell.new k
        ∧ pollFutT fs inner = ([], (inner, StepRes.pend fs))) := by
  cases h with
  | run bp hbp =>
    rcases runBPT_dropFree hbp inner with h₁ | h₁
    · exact Or.inl h₁
    · exact Or.inr (Or.inl h₁)
  | awaitingInput holder k hk =>
    cases holder with
    | none => exact Or.inr (Or.inr ⟨k, rfl, rfl⟩)
    | some v =>
      rcases runBPT_dropFree (hk v) inner with h₁ | h₁
      · exact Or.inl h₁
      · exact Or.inr (Or.inl h₁)
  | pausing rest hr =>
    rcases runBPT_dropFree hr inner with h₁ | h₁
    · exact Or.inl h₁
    · exact Or.inr (Or.inl h₁)

/-- C1 (counterexample).  The claim states that depositing a second Suspension
reason before the first is drained aborts with a fatal contract violation.  It
does not: the blueprint below calls `want_input` without awaiting it (first
deposit) and then `provide_output(5)` (second deposit) before the Driver has
drained anything; the pull succeeds, no error is raised, and the first
(Input) reason is silently overwritten — the emitted event is `Output 5` and
the Input event is lost. -/
theorem c1_counterexample :
    execNext (run (BP.wantInputDrop (BP.provideOutput 5 (BP.pure 0)) : BP Nat Nat Nat))
      = .ok (some (Event.output 5), ⟨some (FutState.pausing (BP.pure 0)), SharedCell.new⟩)
    ∧ ¬ ∃ msg, execNext (run (BP.wantInputDrop (BP.provideOutput 5 (BP.pure 0)) : BP Nat Nat Nat))
      = Except.error msg := by
  refine ⟨rfl, ?_⟩
  rintro ⟨msg, hm⟩
  rw [show execNext (run (BP.wantInputDrop (BP.provideOutput 5 (BP.pure 0)) : BP Nat Nat Nat))
      = .ok (some (Event.output 5), ⟨some (FutState.pausing (BP.pure 0)), SharedCell.new⟩)
    from rfl] at hm
  exact Except.noConfusion hm

/-- C1 (amended).  Depositing a second Suspension reason into the shared slot
before the Driver has drained the first one does NOT abort: `want_input` and
`provide_output` write the shared slot with plain `Cell::set` (lib.rs, lines
41 and 48), which unconditionally replaces the content, so the second deposit
silently overwrites the first, for any combination of Input/Output orderings.
(Only `Responder::provide` on the private holder goes through the asserting
`SharedCell::set`.)  Consequently a blueprint that deposits twice before a
drain runs on without error and only the latest reason is ever emitted. -/
theorem c1_amended (I O R : Type) (e₁ e₂ : InnerEvent I O) (o : O) (r : R) :
    Cell.set (some e₁) (some e₂) = some e₂
    ∧ (Handle.want_input (some e₁)).1 = some InnerEvent.input
    ∧ (Handle.provide_output (some e₁) o).1 = some (InnerEvent.output o)
    ∧ execNext (run (BP.wantInputDrop (BP.provideOutput o (BP.pure r)) : BP I O R))
        = .ok (some (Event.output o), ⟨some (FutState.pausing (BP.pure r)), SharedCell.new⟩) :=
  ⟨rfl, rfl, rfl, rfl⟩

/-- C2 (counterexample).  The claim states that if the consumer never calls
`provide` on a delivered Input Responder, every further pull produces no
further items and raises no separate error.  In fact the very next pull
aborts: the blueprint polls `Pending` without having deposited a new
suspension reason, and `Executor::next` hits
`replace(None).expect("inner event")` (lib.rs, line 118). -/
theorem c2_counterexample :
    pullN 1 (run (BP.wantInput (BP.pure : Nat → BP Nat Nat Nat)))
      = .ok ([Event.input], ⟨some (FutState.awaitingInput SharedCell.new BP.pure), SharedCell.new⟩)
    ∧ pullN 2 (run (BP.wantInput (BP.pure : Nat → BP Nat Nat Nat)))
      = .error "inner event" :=
  ⟨rfl, rfl⟩

/-- C2 (amended).  If the consumer receives an Input event and never calls
`provide`, then as long as it also stops pulling, no error is raised and no
item is produced; but any further pull does not merely produce nothing — it
aborts fatally with the internal contract violation "inner event", because the
blueprint is still pending and no suspension reason is in the shared slot. -/
theorem c2_amended {I O R : Type} (s s₁ : ExecState I O R)
    (h : execNext s = .ok (some Event.input, s₁)) :
    execNext s₁ = .error "inner event" := by
  obtain ⟨k, hk⟩ := execNext_input_state s s₁ h
  subst hk
  rfl

/-- C2 (witness). -/
theorem c2_witness :
    execNext (run (BP.wantInput (fun n => BP.pure (n + 1)) : BP Nat Nat Nat))
      = .ok (some Event.input,
          ⟨some (FutState.awaitingInput SharedCell.new (fun n => BP.pure (n + 1))), SharedCell.new⟩)
    ∧ execNext (⟨some (FutState.awaitingInput SharedCell.new
          (fun n => BP.pure (n + 1))), SharedCell.new⟩ : ExecState Nat Nat Nat)
      = .error "inner event" :=
  ⟨rfl, c2_amended (run (BP.wantInput (fun n => BP.pure (n + 1)) : BP Nat Nat Nat)) _ rfl⟩

/-- C3 (confirmed).  For every Input event and every value `v`, calling
`provide v` on the matching Responder succeeds, and the next pull resumes the
blueprint exactly as if the continuation of the `want_input().await` were
started on `v`: the suspended state behaves identically to a fresh run of
`k v`, so the blueprint observes exactly `v`. -/
theorem c3_provide_resumes {I O R : Type} (s s₁ : ExecState I O R)
    (h : execNext s = .ok (some Event.input, s₁)) (v : I) :
    ∃ k s₂, s₁.future = some (FutState.awaitingInput SharedCell.new k)
      ∧ Responder.provide s₁ v = .ok s₂
      ∧ execNext s₂ = execNext (run (k v)) := by
  obtain ⟨k, hk⟩ := execNext_input_state s s₁ h
  subst hk
  exact ⟨k, ⟨some (.awaitingInput (some v) k), SharedCell.new⟩, rfl, rfl, rfl⟩

/-- C3 (witness). -/
theorem c3_witness :
    execNext (run (BP.wantInput (fun n => BP.provideOutput n (BP.pure n)) : BP Nat Nat Nat))
      = .ok (some Event.input,
          ⟨some (FutState.awaitingInput SharedCell.new
            (fun n => BP.provideOutput n (BP.pure n))), SharedCell.new⟩)
    ∧ ∃ k s₂,
        (⟨some (FutState.awaitingInput SharedCell.new
            (fun n => BP.provideOutput n (BP.pure n))), SharedCell.new⟩ : ExecState Nat Nat Nat).future
          = some (FutState.awaitingInput SharedCell.new k)
        ∧ Responder.provide (⟨some (FutState.awaitingInput SharedCell.new
            (fun n => BP.provideOutput n (BP.pure n))), SharedCell.new⟩ : ExecState Nat Nat Nat) 7
          = .ok s₂
        ∧ execNext s₂ = execNext (run (k 7)) :=
  ⟨rfl, c3_provide_resumes
    (run (BP.wantInput (fun n => BP.provideOutput n (BP.pure n)) : BP Nat Nat Nat)) _ rfl 7⟩

/-- C4 (confirmed).  A pull emits a `Return` event exactly when it completes
the blueprint (the emitted `ret v` carries the value the final poll returned,
which is the blueprint result), and once the future is gone every subsequent
pull, for any number of pulls, yields nothing and leaves the state unchanged —
so a `Return` event is always the last item of the sequence, permanently. -/
theorem c4_return_terminal {I O R : Type} (s : ExecState I O R) (e : Event I O R)
    (s₁ : ExecState I O R) (h : execNext s = .ok (some e, s₁)) :
    ((∃ v, e = Event.ret v) ↔ s₁.future = none)
    ∧ (s₁.future = none → ∀ n, pullN n s₁ = .ok ([], s₁)) := by
  refine ⟨?_, fun h₁ n => pullN_completed n s₁ h₁⟩
  obtain ⟨f, inner⟩ := s
  cases f with
  | none => simp [execNext] at h
  | some fs =>
    unfold execNext at h
    dsimp only at h
    rcases hp : pollFut fs inner with ⟨inner₁, res⟩
    rw [hp] at h
    cases res with
    | ready v =>
      simp only [Except.ok.injEq, Prod.mk.injEq, Option.some.injEq] at h
      obtain ⟨he, hs⟩ := h
      subst he
      subst hs
      simp
    | pend fs₁ =>
      cases inner₁ with
      | none => simp [SharedCell.take] at h
      | some ie =>
        simp only [SharedCell.take, Except.ok.injEq, Prod.mk.injEq, Option.some.injEq] at h
        obtain ⟨he, hs⟩ := h
        subst he
        subst hs
        cases ie <;> simp [InnerEvent.toEvent]

/-- C4 (witness). -/
theorem c4_witness :
    execNext (run (BP.pure 42 : BP Nat Nat Nat))
      = .ok (some (Event.ret 42), ⟨none, SharedCell.new⟩)
    ∧ pullN 3 (⟨none, SharedCell.new⟩ : ExecState Nat Nat Nat)
      = .ok ([], ⟨none, SharedCell.new⟩) :=
  ⟨rfl, (c4_return_terminal (run (BP.pure 42 : BP Nat Nat Nat)) _ _ rfl).2 rfl 3⟩

/-- C5 (confirmed).  `provide_output o` deposits the output reason and then
suspends for exactly one step: the poll that executes it deposits
`Output o` into the shared slot and suspends in `Pause` (whose first poll is
`Pending`, so the Driver observes the output before any further blueprint
work), the second poll of `Pause` is `Ready`, and resuming the paused state
unconditionally continues with the rest of the body — no external input is
involved. -/
theorem c5_provide_output_one_step (I O R : Type) (o : O) (rest : BP I O R)
    (inner : SharedCell (InnerEvent I O)) :
    Pause.poll false = (true, Poll.pending)
    ∧ Pause.poll true = (true, Poll.ready ())
    ∧ runBP (BP.provideOutput o rest) inner
        = (some (InnerEvent.output o), StepRes.pend (FutState.pausing rest))
    ∧ pollFut (FutState.pausing rest) inner = runBP rest inner :=
  ⟨rfl, rfl, rfl, rfl⟩

/-- C6 (counterexample).  The claim states that every pull before completion
produces exactly one Event.  Not so: after an Input event whose Responder is
never fulfilled, the next pull happens strictly before completion (the future
is still present) yet produces no Event at all — it aborts with the fatal
"inner event" contract violation. -/
theorem c6_counterexample :
    execNext (run (BP.wantInput (fun v => BP.provideOutput v (BP.pure 0)) : BP Nat Nat Nat))
      = .ok (some Event.input,
          ⟨some (FutState.awaitingInput SharedCell.new
            (fun v => BP.provideOutput v (BP.pure 0))), SharedCell.new⟩)
    ∧ (⟨some (FutState.awaitingInput SharedCell.new
          (fun v => BP.provideOutput v (BP.pure 0))), SharedCell.new⟩ : ExecState Nat Nat Nat).future
        ≠ none
    ∧ execNext (⟨some (FutState.awaitingInput SharedCell.new
          (fun v => BP.provideOutput v (BP.pure 0))), SharedCell.new⟩ : ExecState Nat Nat Nat)
        = .error "inner event" :=
  ⟨rfl, fun h => Option.noConfusion h, rfl⟩

/-- C6 (amended).  For a drop-free blueprint (every Handle operation awaited)
with the shared slot drained, each pull before completion either (a) completes
and emits exactly one event, the final `Return`, with no deposit made, (b)
deposits exactly one suspension reason during the poll and emits exactly that
reason as the sole event of the pull — so the emitted events appear in
precisely the temporal order of the deposits — or (c) aborts fatally with the
"inner event" contract violation when the blueprint is suspended on an
unfulfilled Input; and a pull after completion produces nothing.  Drop-freedom
and the drained slot are preserved, so this account holds across every pull of
a run. -/
theorem c6_one_event_per_pull {I O R : Type} (s : ExecState I O R)
    (hin : s.inner = SharedCell.new) (hdf : s.DropFree) :
    (s.future = none → execNextT s = ([], .ok (none, s)))
    ∧ (∀ fs, s.future = some fs →
        (∃ v, execNextT s = ([], .ok (some (Event.ret v), ⟨none, SharedCell.new⟩)))
        ∨ (∃ ie s₁, execNextT s = ([ie], .ok (some ie.toEvent, s₁))
            ∧ s₁.inner = SharedCell.new ∧ s₁.DropFree)
        ∨ execNextT s = ([], .error "inner event")) := by
  obtain ⟨f, inner⟩ := s
  dsimp only at hin
  subst hin
  constructor
  · intro h
    dsimp only at h
    subst h
    rfl
  · intro fs hfs
    dsimp only at hfs
    subst hfs
    have hf : fs.DropFree := hdf fs rfl
    rcases pollFutT_dropFree hf SharedCell.new with ⟨r, hr⟩ | ⟨e, fs₁, he, hdf₁⟩ | ⟨k, hkfs, hk⟩
    · refine Or.inl ⟨r, ?_⟩
      unfold execNextT
      dsimp only
      rw [hr]
    · refine Or.inr (Or.inl ⟨e, ⟨some fs₁, SharedCell.new⟩, ?_, rfl, ?_⟩)
      · unfold execNextT
        dsimp only
        rw [he]
        rfl
      · intro fs₂ h₂
        dsimp only at h₂
        injection h₂ with h₂
        rw [← h₂]
        exact hdf₁
    · refine Or.inr (Or.inr ?_)
      unfold execNextT
      dsimp only
      rw [hk]
      rfl

/-- C6 (witness). -/
theorem c6_witness :
    (run (BP.provideOutput 1 (BP.pure 2) : BP Nat Nat Nat)).inner = SharedCell.new
    ∧ ExecState.DropFree (run (BP.provideOutput 1 (BP.pure 2) : BP Nat Nat Nat))
    ∧ ((∃ v, execNextT (run (BP.provideOutput 1 (BP.pure 2) : BP Nat Nat Nat))
          = ([], .ok (some (Event.ret v), ⟨none, SharedCell.new⟩)))
        ∨ (∃ ie s₁, execNextT (run (BP.provideOutput 1 (BP.pure 2) : BP Nat Nat Nat))
            = ([ie], .ok (some ie.toEvent, s₁))
            ∧ s₁.inner = SharedCell.new ∧ s₁.DropFree)
        ∨ execNextT (run (BP.provideOutput 1 (BP.pure 2) : BP Nat Nat Nat))
            = ([], .error "inner event")) := by
  have hdf : ExecState.DropFree (run (BP.provideOutput 1 (BP.pure 2) : BP Nat Nat Nat)) := by
    intro fs h
    injection h with h
    rw [← h]
    exact .run _ (.provideOutput _ _ (.pure _))
  exact ⟨rfl, hdf,
    (c6_one_event_per_pull (run (BP.provideOutput 1 (BP.pure 2) : BP Nat Nat Nat)) rfl hdf).2
      _ rfl⟩

/-- C8 (confirmed).  The waker the driver installs is `fake_waker`: an attempt
by the blueprint to register a real external continuation — cloning the waker
to keep it beyond the synchronous poll — aborts fatally ("Blueprint is not an
async runtime."); its `wake`, `wake_by_ref` and `drop` entries are no-ops, and
the poll of the blueprint future never consults the context, so the waker has
no effect on execution. -/
theorem c8_fake_waker (I O R : Type) :
    fake_waker WakerCall.clone = .error "Blueprint is not an async runtime."
    ∧ executorWaker WakerCall.clone = .error "Blueprint is not an async runtime."
    ∧ fake_waker WakerCall.wake = .ok ()
    ∧ fake_waker WakerCall.wakeByRef = .ok ()
    ∧ fake_waker WakerCall.drop = .ok ()
    ∧ ∀ (cx₁ cx₂ : Waker) (fs : FutState I O R) (inner : SharedCell (InnerEvent I O)),
        pollFutWithCx cx₁ fs inner = pollFutWithCx cx₂ fs inner :=
  ⟨rfl, rfl, rfl, rfl, rfl, fun _ _ _ _ => rfl⟩

/-- C9 (confirmed).  Whenever a pull hands out an Input event, the blueprint
is suspended on a `WantInput` whose private holder cell was created fresh and
empty by `want_input`; therefore calling `provide` on the delivered Responder
always succeeds — the "SharedCell was already set" assertion branch is
unreachable for a Responder handed out by `want_input`. -/
theorem c9_provide_never_asserts {I O R : Type} (s s₁ : ExecState I O R)
    (h : execNext s = .ok (some Event.input, s₁)) :
    (∃ k, s₁.future = some (FutState.awaitingInput SharedCell.new k))
    ∧ ∀ v, ∃ s₂, Responder.provide s₁ v = .ok s₂ := by
  obtain ⟨k, hk⟩ := execNext_input_state s s₁ h
  subst hk
  exact ⟨⟨k, rfl⟩, fun v => ⟨⟨some (.awaitingInput (some v) k), SharedCell.new⟩, rfl⟩⟩

/-- C9 (witness). -/
theorem c9_witness :
    execNext (run (BP.wantInput (fun n => BP.pure (n * 2)) : BP Nat Nat Nat))
      = .ok (some Event.input,
          ⟨some (FutState.awaitingInput SharedCell.new (fun n => BP.pure (n * 2))), SharedCell.new⟩)
    ∧ ((∃ k, (⟨some (FutState.awaitingInput SharedCell.new
            (fun n => BP.pure (n * 2))), SharedCell.new⟩ : ExecState Nat Nat Nat).future
          = some (FutState.awaitingInput SharedCell.new k))
        ∧ ∀ v, ∃ s₂, Responder.provide (⟨some (FutState.awaitingInput SharedCell.new
            (fun n => BP.pure (n * 2))), SharedCell.new⟩ : ExecState Nat Nat Nat) v = .ok s₂) :=
  ⟨rfl, c9_provide_never_asserts
    (run (BP.wantInput (fun n => BP.pure (n * 2)) : BP Nat Nat Nat)) _ rfl⟩

/-- C10 (confirmed).  `run` only builds the executor around the constructed
blueprint: for every blueprint, the returned state stores the future unpolled
(still at its entry point, with no continuation state and no private holder
allocated) and the shared suspension-reason slot is the freshly created empty
cell — no step of the blueprint has executed and nothing was deposited. -/
theorem c10_run_no_step (I O R : Type) (bp : BP I O R) :
    (run bp).inner = SharedCell.new ∧ (run bp).future = some (FutState.run bp) :=
  ⟨rfl, rfl⟩

end Blauprint
